import Mathlib

set_option autoImplicit false

/-!
Shallow embedding of the task-svc repository (Go + PostgreSQL), covering the
domain model (`internal/domain/task.go`), the repository layer
(`internal/repo`, file `TaskRepo`), the service layer
(`internal/service/task_service.go`), the pagination helpers
(`pkg/pagination/pagination.go`) and the parameter handling of the HTTP
list/update handlers (`internal/http/handlers.go`), together with the
`tasks` table semantics of the SQL migration (trigger
`update_task_modified_column`).

Modelling conventions:
* `uuid.UUID` is opaque; ids are `Nat`.
* `time.Time` timestamps are `Nat` (an abstract monotone clock value);
  operations that read the clock take a `now : Nat` argument.
* Go `int` versions are `Nat`: the code only ever stores `1` and
  increments by one, and request versions are validated `min=1`.
* Go `int` page/size values are `Int`, since the `< 1` normalisation in
  `pagination.Parse` inspects the sign.
* Go pointer-valued optional fields (`*string`, `*time.Time`, `*Status`,
  `*int`) are `Option _`.
* The database is a sequential, in-memory model of the `tasks` table: a
  `List Task` of rows.  Infrastructure failures (network, pool) are out of
  scope; the only errors produced are the ones the Go code creates itself.
* Go sentinel errors made by `errors.New` are constructors of `GoErr`;
  `errors.Is` on such non-wrapping errors is plain identity, modelled by
  `errsIs`.
-/

namespace TaskSvc

/-- `domain.Status`: enumeration of the four task states
(`internal/domain/task.go`). -/
inductive Status where
  | pending
  | inProgress
  | completed
  | cancelled
deriving DecidableEq, Repr

/-- `domain.Task` (`internal/domain/task.go`): the canonical task row. -/
structure Task where
  id : Nat
  title : String
  description : Option String
  status : Status
  dueDate : Option Nat
  createdAt : Nat
  updatedAt : Nat
  version : Nat
deriving DecidableEq, Repr

/-- `domain.CreateTaskRequest`. -/
structure CreateTaskRequest where
  title : String
  description : Option String
  status : Option Status
  dueDate : Option Nat
deriving DecidableEq, Repr

/-- `domain.UpdateTaskRequest` (full update; version mandatory). -/
structure UpdateTaskRequest where
  title : String
  description : Option String
  status : Status
  dueDate : Option Nat
  version : Nat
deriving DecidableEq, Repr

/-- `domain.PatchTaskRequest`: every field optional, presence carried by
the `Option` (Go: pointer) wrapper. -/
structure PatchTaskRequest where
  title : Option String
  description : Option String
  status : Option Status
  dueDate : Option Nat
  version : Option Nat
deriving DecidableEq, Repr

/-- Go error values relevant to the task flow.  `repoNotFound` and
`repoVersionConflict` are `repo.ErrNotFound` / `repo.ErrVersionConflict`;
`svcNotFound` and `svcVersionConflict` are `service.ErrNotFound` /
`service.ErrVersionConflict` — four distinct `errors.New` values.
`otherError` stands for any wrapped infrastructure error. -/
inductive GoErr where
  | repoNotFound
  | repoVersionConflict
  | svcNotFound
  | svcVersionConflict
  | otherError
deriving DecidableEq, Repr

/-- `errors.Is` restricted to the errors above: none of them has an
`Unwrap` chain reaching a sentinel, so `errors.Is` reduces to identity. -/
def errsIs (e target : GoErr) : Bool := e == target

/-- The `tasks` table: rows in storage order. -/
abbrev DB := List Task

/-- `SELECT ... FROM tasks WHERE id = $1` — first row with the id. -/
def lookupTask (db : DB) (id : Nat) : Option Task :=
  List.find? (fun r => r.id == id) db

/-- `TaskRepo.Get`: fetch by id, `repo.ErrNotFound` when no row. -/
def repoGet (db : DB) (id : Nat) : Except GoErr Task :=
  match lookupTask db id with
  | some t => .ok t
  | none => .error .repoNotFound

/-- Effect of the `BEFORE UPDATE` trigger `update_task_modified_column`
combined with the `SET` list used by both `TaskRepo.Update` and
`TaskRepo.Patch`: the four caller-set columns are overwritten, the trigger
sets `updated_at = now()` and `version = OLD.version + 1`. -/
def applyRowUpdate (now : Nat) (title : String) (descr : Option String)
    (st : Status) (due : Option Nat) (row : Task) : Task :=
  { row with
    title := title, description := descr, status := st, dueDate := due,
    updatedAt := now, version := row.version + 1 }

/-- The conditional write
`UPDATE tasks SET title,description,status,due_date WHERE id = $1 AND
version = $6 RETURNING version` shared by `TaskRepo.Update` and
`TaskRepo.Patch`.  Returns the table after the statement together with the
`RETURNING` row's new version (`none` ~ `pgx.ErrNoRows`). -/
def sqlConditionalUpdate (db : DB) (now : Nat) (id : Nat) (title : String)
    (descr : Option String) (st : Status) (due : Option Nat)
    (expected : Nat) : DB × Option Nat :=
  let hit := List.find? (fun r => r.id == id && r.version == expected) db
  let db2 := db.map (fun r =>
    if r.id == id && r.version == expected then
      applyRowUpdate now title descr st due r
    else r)
  (db2, hit.map (fun r => r.version + 1))

/-- `SELECT EXISTS(SELECT 1 FROM tasks WHERE id = $1)` — `TaskRepo.exists`. -/
def taskExists (db : DB) (id : Nat) : Bool :=
  db.any (fun r => r.id == id)

/-- `TaskRepo.Update`: one conditional `UPDATE`; on `ErrNoRows` it checks
existence to tell `ErrNotFound` from `ErrVersionConflict`; on success it
writes the returned version back into the task value. -/
def repoUpdate (db : DB) (now : Nat) (task : Task) :
    DB × Except GoErr Task :=
  match sqlConditionalUpdate db now task.id task.title task.description
      task.status task.dueDate task.version with
  | (db2, some newVersion) => (db2, .ok { task with version := newVersion })
  | (db2, none) =>
    if taskExists db2 task.id then (db2, .error .repoVersionConflict)
    else (db2, .error .repoNotFound)

/-- `TaskRepo.Create`: plain `INSERT`; the primary key makes a duplicate id
fail (a wrapped pg error, not a sentinel). -/
def repoCreate (db : DB) (task : Task) : DB × Except GoErr Unit :=
  if taskExists db task.id then (db, .error .otherError)
  else (db ++ [task], .ok ())

/-- `TaskRepo.Delete`: `DELETE FROM tasks WHERE id = $1`;
`RowsAffected() == 0` becomes `repo.ErrNotFound`. -/
def repoDelete (db : DB) (id : Nat) : DB × Except GoErr Unit :=
  let db2 := db.filter (fun r => r.id != id)
  if taskExists db id then (db2, .ok ()) else (db2, .error .repoNotFound)

/-- The field merge inside `TaskRepo.Patch`: every present field
overwrites, every absent field is kept. -/
def applyPatch (t : Task) (p : PatchTaskRequest) : Task :=
  { t with
    title := match p.title with | some v => v | none => t.title,
    description := match p.description with
      | some v => some v
      | none => t.description,
    status := match p.status with | some v => v | none => t.status,
    dueDate := match p.dueDate with | some v => some v | none => t.dueDate }

/-- The write half of `TaskRepo.Patch` (shared by both version branches):
conditional `UPDATE` at the version read earlier; `ErrNoRows` is reported
as `ErrVersionConflict`; `RETURNING version, updated_at` overwrites those
two fields of the returned task. -/
def repoPatchWrite (db : DB) (now : Nat) (task : Task)
    (p : PatchTaskRequest) : DB × Except GoErr Task :=
  let t := applyPatch task p
  match sqlConditionalUpdate db now t.id t.title t.description t.status
      t.dueDate task.version with
  | (db2, some newVersion) =>
    (db2, .ok { t with version := newVersion, updatedAt := now })
  | (db2, none) => (db2, .error .repoVersionConflict)

/-- `TaskRepo.Patch`: read the row, check the optional expected version,
merge present fields, then re-check the version atomically in the
conditional `UPDATE`. -/
def repoPatch (db : DB) (now : Nat) (id : Nat) (p : PatchTaskRequest) :
    DB × Except GoErr Task :=
  match repoGet db id with
  | .error e => (db, .error e)
  | .ok task =>
    match p.version with
    | some v =>
      if v ≠ task.version then (db, .error .repoVersionConflict)
      else repoPatchWrite db now task p
    | none => repoPatchWrite db now task p

/-- The task value `taskService.Create` builds: fresh id and clock
injected; default status `Pending`; both timestamps `now`; version 1. -/
def createdTask (now newId : Nat) (req : CreateTaskRequest) : Task :=
  { id := newId
    title := req.title
    description := req.description
    status := match req.status with | some s => s | none => .pending
    dueDate := req.dueDate
    createdAt := now
    updatedAt := now
    version := 1 }

/-- `taskService.Create`: build the initial task value and insert it. -/
def serviceCreate (db : DB) (now newId : Nat) (req : CreateTaskRequest) :
    DB × Except GoErr Task :=
  match repoCreate db (createdTask now newId req) with
  | (db2, .ok ()) => (db2, .ok (createdTask now newId req))
  | (db2, .error e) => (db2, .error e)

/-- `taskService.Get`: `repo.ErrNotFound` becomes `service.ErrNotFound`,
anything else passes through. -/
def serviceGet (db : DB) (id : Nat) : Except GoErr Task :=
  match repoGet db id with
  | .ok t => .ok t
  | .error e =>
    if errsIs e .repoNotFound then .error .svcNotFound else .error e

/-- The in-memory full replacement `taskService.Update` performs before
handing the task to the repository. -/
def replacedTask (req : UpdateTaskRequest) (t : Task) : Task :=
  { t with
    title := req.title
    description := req.description
    status := req.status
    dueDate := req.dueDate }

/-- `taskService.Update`: load, in-process version check, full field
replacement, conditional write, then a re-fetch for the authoritative
post-write row (that last `Get` is returned unmapped, exactly as the Go
code does). -/
def serviceUpdate (db : DB) (now : Nat) (id : Nat)
    (req : UpdateTaskRequest) : DB × Except GoErr Task :=
  match repoGet db id with
  | .error e =>
    if errsIs e .repoNotFound then (db, .error .svcNotFound)
    else (db, .error e)
  | .ok task =>
    if task.version ≠ req.version then (db, .error .svcVersionConflict)
    else
      match repoUpdate db now (replacedTask req task) with
      | (db2, .error e) =>
        if errsIs e .repoVersionConflict then (db2, .error .svcVersionConflict)
        else if errsIs e .repoNotFound then (db2, .error .svcNotFound)
        else (db2, .error e)
      | (db2, .ok _) => (db2, repoGet db2 id)

/-- `taskService.Patch`: delegate to the repo, mapping the two sentinels. -/
def servicePatch (db : DB) (now : Nat) (id : Nat) (req : PatchTaskRequest) :
    DB × Except GoErr Task :=
  match repoPatch db now id req with
  | (db2, .ok t) => (db2, .ok t)
  | (db2, .error e) =>
    if errsIs e .repoVersionConflict then (db2, .error .svcVersionConflict)
    else if errsIs e .repoNotFound then (db2, .error .svcNotFound)
    else (db2, .error e)

/-- `taskService.Delete`: `repo.ErrNotFound` is swallowed — an already
absent row is success. -/
def serviceDelete (db : DB) (id : Nat) : DB × Except GoErr Unit :=
  match repoDelete db id with
  | (db2, .ok ()) => (db2, .ok ())
  | (db2, .error e) =>
    if errsIs e .repoNotFound then (db2, .ok ()) else (db2, .error e)

/-! ### Query engine: `TaskRepo.List` and `pkg/pagination` -/

/-- `domain.TaskFilter`.  Page and size are Go `int`s (sign matters in the
normalisation code), `sort` is the raw token string. -/
structure TaskFilter where
  status : Option Status
  page : Int
  size : Int
  sort : String
deriving DecidableEq, Repr

/-- `domain.PageMeta`. -/
structure PageMeta where
  page : Int
  pageSize : Int
  totalItems : Int
  totalPages : Int
deriving DecidableEq, Repr

/-- `domain.TaskList`. -/
structure TaskList where
  items : List Task
  meta : PageMeta
deriving DecidableEq, Repr

/-- `int(math.Ceil(float64(total) / float64(size)))` for `size ≥ 1` and
realistic (< 2^53) totals: the ceiling division of naturals.  Both
`TaskRepo.List` and `pagination.CalculateTotalPages` compute this. -/
def goCeilDiv (total size : Nat) : Nat := (total + size - 1) / size

/-- The `WHERE ($1::task_status IS NULL OR status = $1)` filter of both
the count and the page query. -/
def statusMatches (filter : Option Status) (t : Task) : Bool :=
  match filter with
  | none => true
  | some s => t.status == s

/-- Three-way comparison of a nullable column ascending, Postgres default
`NULLS LAST`. -/
def cmpOptAsc (a b : Option Nat) : Ordering :=
  match a, b with
  | some x, some y => compare x y
  | some _, none => .lt
  | none, some _ => .gt
  | none, none => .eq

/-- Three-way comparison of a nullable column descending, Postgres default
`NULLS FIRST`. -/
def cmpOptDesc (a b : Option Nat) : Ordering :=
  match a, b with
  | some x, some y => compare y x
  | some _, none => .gt
  | none, some _ => .lt
  | none, none => .eq

/-- The `ORDER BY` of `TaskRepo.List`: of the four `CASE WHEN $2 = ...`
keys exactly the one matching the sort token is non-null (any other token
leaves all four null, i.e. every pair ties), followed by the fixed
`created_at DESC` tie-break. -/
def rowCmp (sortTok : String) (a b : Task) : Ordering :=
  let primary :=
    if sortTok == "created_at" then compare a.createdAt b.createdAt
    else if sortTok == "-created_at" then compare b.createdAt a.createdAt
    else if sortTok == "due_date" then cmpOptAsc a.dueDate b.dueDate
    else if sortTok == "-due_date" then cmpOptDesc a.dueDate b.dueDate
    else .eq
  match primary with
  | .eq => compare b.createdAt a.createdAt
  | o => o

/-- `a` may come before `b` in the `ORDER BY` order. -/
def rowLe (sortTok : String) (a b : Task) : Prop :=
  rowCmp sortTok a b ≠ .gt

instance (sortTok : String) : DecidableRel (rowLe sortTok) := by
  intro a b
  unfold rowLe
  infer_instance

/-- `TaskRepo.List`: count under the filter, compute the page metadata,
short-circuit on an empty result, otherwise sort the filtered rows by the
`ORDER BY` order and cut the `LIMIT $3 OFFSET $4` window with
`offset = (page-1) * size`.  (`Int.toNat` models Postgres treating the
nonnegative limit/offset values the handlers produce; the count and page
query run against the same table state.) -/
def repoList (db : DB) (f : TaskFilter) : TaskList :=
  let total := (db.filter (statusMatches f.status)).length
  let totalPages := goCeilDiv total f.size.toNat
  if total == 0 then
    { items := []
      meta := { page := f.page, pageSize := f.size, totalItems := total,
                totalPages := totalPages } }
  else
    let sorted :=
      List.insertionSort (rowLe f.sort) (db.filter (statusMatches f.status))
    let items := (sorted.drop ((f.page - 1) * f.size).toNat).take f.size.toNat
    { items := items
      meta := { page := f.page, pageSize := f.size, totalItems := total,
                totalPages := totalPages } }

/-- `taskService.List` just delegates. -/
def serviceList (db : DB) (f : TaskFilter) : TaskList := repoList db f

/-- `pagination.DefaultParams`. -/
structure DefaultParams where
  defaultPage : Int
  defaultSize : Int
  maxSize : Int
deriving DecidableEq, Repr

/-- `pagination.Parse`: the two query strings have already been through
`strconv.Atoi`, whose outcome is modelled as `Option Int` (`none` = parse
error, which covers a missing parameter).  Unparsable or `< 1` values fall
back to the defaults; the size is then clamped to `MaxSize`.  Nothing is
ever rejected. -/
def paginationParse (page size : Option Int) (defaults : DefaultParams) :
    Int × Int :=
  let pageNum := match page with
    | none => defaults.defaultPage
    | some p => if p < 1 then defaults.defaultPage else p
  let pageSize := match size with
    | none => defaults.defaultSize
    | some s => if s < 1 then defaults.defaultSize else s
  let pageSize := if pageSize > defaults.maxSize then defaults.maxSize
    else pageSize
  (pageNum, pageSize)

/-- `pagination.CalculateTotalPages`. -/
def calculateTotalPages (totalItems pageSize : Nat) : Nat :=
  goCeilDiv totalItems pageSize

/-- `config.PaginationConfig`. -/
structure PaginationConfig where
  defaultSize : Int
  maxSize : Int
deriving DecidableEq, Repr

/-- `handlers.isValidStatus`. -/
def isValidStatusStr (s : String) : Bool :=
  s == "Pending" || s == "InProgress" || s == "Completed" || s == "Cancelled"

/-- `domain.Status(statusParam)` restricted to the valid strings (the
handler only builds the filter after `isValidStatus` passes). -/
def statusOfString (s : String) : Option Status :=
  if s == "Pending" then some .pending
  else if s == "InProgress" then some .inProgress
  else if s == "Completed" then some .completed
  else if s == "Cancelled" then some .cancelled
  else none

/-- `handlers.isValidSortField`. -/
def isValidSortField (s : String) : Bool :=
  s == "created_at" || s == "-created_at" ||
  s == "due_date" || s == "-due_date"

/-- The raw query parameters of `GET /v1/tasks` as the handler sees them:
`page`/`page_size` after `strconv.Atoi` (`none` = absent or unparsable),
`status` and `sort` as raw strings (`""` = absent, which is what
`URL.Query().Get` returns). -/
structure ListQuery where
  page : Option Int
  pageSize : Option Int
  status : String
  sort : String
deriving DecidableEq, Repr

/-- Validation failures of `TaskHandler.ListTasks`. -/
inductive ListError where
  | invalidStatus
  | invalidSort
deriving DecidableEq, Repr

/-- The parameter-processing stage of `TaskHandler.ListTasks`: pagination
values silently normalised via `pagination.Parse` (DefaultPage hardcoded
to 1), then the status filter validated, then the sort token defaulted to
`-created_at` and validated. -/
def listTasksParse (q : ListQuery) (cfg : PaginationConfig) :
    Except ListError TaskFilter :=
  let pp := paginationParse q.page q.pageSize
    { defaultPage := 1, defaultSize := cfg.defaultSize,
      maxSize := cfg.maxSize }
  let statusStep : Except ListError (Option Status) :=
    if q.status == "" then .ok none
    else if isValidStatusStr q.status then .ok (statusOfString q.status)
    else .error .invalidStatus
  match statusStep with
  | .error e => .error e
  | .ok st =>
    let sort := if q.sort == "" then "-created_at" else q.sort
    if isValidSortField sort then
      .ok { status := st, page := pp.1, size := pp.2, sort := sort }
    else .error .invalidSort

/-- A concrete task used in examples and witnesses. -/
def sampleTask : Task :=
  { id := 1, title := "a", description := some "d", status := .pending,
    dueDate := none, createdAt := 10, updatedAt := 10, version := 1 }

/-- A patch that touches nothing at all. -/
def emptyPatch : PatchTaskRequest :=
  { title := none, description := none, status := none, dueDate := none,
    version := none }

/-- The stored version of a task id (the `version` column of its row). -/
def storedVersion (db : DB) (id : Nat) : Option Nat :=
  (lookupTask db id).map Task.version

/-- The row state written by a full update of `t` under request `req`. -/
def updatedRow (now : Nat) (req : UpdateTaskRequest) (t : Task) : Task :=
  applyRowUpdate now req.title req.description req.status req.dueDate t

/-- The row state written by a patch `p` of `t`: present fields merged,
then the trigger bumps `version` and `updated_at`. -/
def patchedRow (now : Nat) (t : Task) (p : PatchTaskRequest) : Task :=
  applyRowUpdate now (applyPatch t p).title (applyPatch t p).description
    (applyPatch t p).status (applyPatch t p).dueDate t

/-- One write operation of the optimistic-concurrency protocol: a full
update or a patch, as accepted by the Task Operations Service. -/
inductive Mutation where
  | update (req : UpdateTaskRequest) : Mutation
  | patch (req : PatchTaskRequest) : Mutation

/-- Run one mutation against the service. -/
def applyMutation (db : DB) (now id : Nat) : Mutation → DB × Except GoErr Task
  | .update req => serviceUpdate db now id req
  | .patch req => servicePatch db now id req

/-- Run a sequence of timestamped mutations, requiring every one of them
to succeed (`none` as soon as one fails). -/
def runMutations (db : DB) (id : Nat) :
    List (Nat × Mutation) → Option DB
  | [] => some db
  | (now, m) :: rest =>
    match applyMutation db now id m with
    | (db2, .ok _) => runMutations db2 id rest
    | (_, .error _) => none

/-- The concrete initial row used in the C2 witness. -/
def t0c : Task :=
  { id := 7, title := "x", description := none, status := .pending,
    dueDate := none, createdAt := 0, updatedAt := 0, version := 1 }

/-- The error classification shared by the `GetTask`, `UpdateTask` and
`PatchTask` handlers (`internal/http/handlers.go`): match against the
*repository* sentinels via `errors.Is`, defaulting to 500. -/
def handlerErrorStatus (e : GoErr) : Nat :=
  if errsIs e .repoNotFound then 404
  else if errsIs e .repoVersionConflict then 409
  else 500

/-- Five concrete tasks with distinct creation times. -/
def listDb5 : DB :=
  [{ sampleTask with id := 1, createdAt := 10 },
   { sampleTask with id := 2, createdAt := 20 },
   { sampleTask with id := 3, createdAt := 30, status := .inProgress },
   { sampleTask with id := 4, createdAt := 40 },
   { sampleTask with id := 5, createdAt := 50, status := .completed }]

/-- The pagination configuration with the code's documented defaults
(`DEFAULT_SIZE=20`, `MAX_SIZE=100`). -/
def defaultCfg : PaginationConfig := { defaultSize := 20, maxSize := 100 }

/-- Sample full-update request. -/
def sampleUpdateReq : UpdateTaskRequest :=
  { title := "b", description := none, status := .completed,
    dueDate := some 99, version := 1 }

example :
    (serviceDelete [] 3).2 = .ok () := rfl

example : serviceGet [sampleTask] 2 = .error .svcNotFound := rfl

/-! ### Helper lemmas -/

/-- `repo.Get` can only fail with `repo.ErrNotFound`. -/
theorem repoGet_error_eq {db : DB} {id : Nat} {e : GoErr}
    (h : repoGet db id = .error e) : e = .repoNotFound := by
  unfold repoGet at h
  cases hl : lookupTask db id with
  | some t => rw [hl] at h; cases h
  | none => rw [hl] at h; cases h; rfl

/-- If the first row with a given id is `t`, then the first row with that
id *and* `t`'s version is also `t` (the conditional `UPDATE`'s `WHERE`
clause hits exactly the row the preceding read returned, in a sequential
execution). -/
theorem find?_id_and_version {db : DB} {id : Nat} {t : Task}
    (h : lookupTask db id = some t) :
    List.find? (fun r => r.id == id && r.version == t.version) db = some t := by
  induction db with
  | nil => simp [lookupTask] at h
  | cons r rest ih =>
    by_cases hr : (r.id == id) = true
    · have hrt : r = t := by
        have := List.find?_cons_of_pos (p := fun x : Task => x.id == id) rest hr
        rw [lookupTask, this] at h
        exact Option.some.inj h
      subst hrt
      exact List.find?_cons_of_pos _ (by simp [hr])
    · have h' : lookupTask rest id = some t := by
        have := List.find?_cons_of_neg (p := fun x : Task => x.id == id) rest hr
        rw [lookupTask, this] at h
        exact h
      rw [List.find?_cons_of_neg _ (by simp [hr])]
      exact ih h'

/-- Mapping an id-preserving row transformation over the table commutes
with the id lookup. -/
theorem lookupTask_map (db : DB) (id : Nat) (f : Task → Task)
    (hf : ∀ r, (f r).id = r.id) :
    lookupTask (db.map f) id = (lookupTask db id).map f := by
  induction db with
  | nil => simp [lookupTask]
  | cons r rest ih =>
    by_cases hr : (r.id == id) = true
    · have hfr : ((f r).id == id) = true := by rw [hf]; exact hr
      rw [lookupTask, List.map_cons,
        List.find?_cons_of_pos (p := fun x : Task => x.id == id) _ hfr]
      rw [lookupTask, List.find?_cons_of_pos (p := fun x : Task => x.id == id) _ hr]
      rfl
    · have hfr : ¬ ((f r).id == id) = true := by rw [hf]; exact hr
      rw [lookupTask, List.map_cons,
        List.find?_cons_of_neg (p := fun x : Task => x.id == id) _ hfr]
      rw [lookupTask, List.find?_cons_of_neg (p := fun x : Task => x.id == id) _ hr]
      exact ih

/-- The requested window really covers everything:
`totalItems ≤ totalPages * pageSize`. -/
theorem le_goCeilDiv_mul (total s : Nat) (hs : 1 ≤ s) :
    total ≤ goCeilDiv total s * s := by
  unfold goCeilDiv
  have h1 := Nat.div_add_mod (total + s - 1) s
  have h2 : (total + s - 1) % s < s := Nat.mod_lt _ (by omega)
  rw [mul_comm]
  generalize hX : s * ((total + s - 1) / s) = X at h1 ⊢
  omega

/-- `repo.Get` succeeds exactly on the looked-up row. -/
theorem repoGet_ok_iff {db : DB} {id : Nat} {t : Task} :
    repoGet db id = .ok t ↔ lookupTask db id = some t := by
  unfold repoGet
  cases lookupTask db id <;> simp

/-- The row returned by the id lookup carries that id. -/
theorem lookupTask_some_id {db : DB} {id : Nat} {t : Task}
    (h : lookupTask db id = some t) : t.id = id := by
  have h' : List.find? (fun x : Task => x.id == id) db = some t := h
  simpa using List.find?_some h'

/-- The conditional `UPDATE` at the version just read hits its row: the
`RETURNING` value is the incremented version and the table is rewritten
pointwise. -/
theorem sqlConditionalUpdate_hit (db : DB) (now id : Nat) (title : String)
    (descr : Option String) (st : Status) (due : Option Nat) (t : Task)
    (h : lookupTask db id = some t) :
    sqlConditionalUpdate db now id title descr st due t.version =
      (db.map (fun r => if r.id == id && r.version == t.version then
          applyRowUpdate now title descr st due r
        else r),
       some (t.version + 1)) := by
  unfold sqlConditionalUpdate
  rw [find?_id_and_version h]
  rfl

/-- `taskService.Update` on an existing row with the matching expected
version: the conditional write succeeds, and the re-fetched row (which is
also the returned value) is the fully replaced row with version bumped by
one. -/
theorem serviceUpdate_ok_eq (db : DB) (now id : Nat)
    (req : UpdateTaskRequest) (t : Task)
    (h : lookupTask db id = some t) (hv : t.version = req.version) :
    ∃ db2, serviceUpdate db now id req = (db2, .ok (updatedRow now req t)) ∧
      lookupTask db2 id = some (updatedRow now req t) := by
  have htid : t.id = id := lookupTask_some_id h
  have hget : repoGet db id = .ok t := repoGet_ok_iff.mpr h
  set f : Task → Task := fun r =>
    if r.id == id && r.version == t.version then
      applyRowUpdate now req.title req.description req.status req.dueDate r
    else r with hf
  have hfid : ∀ r, (f r).id = r.id := by
    intro r
    rw [hf]
    dsimp only
    split <;> rfl
  have hcond : (t.id == id && t.version == t.version) = true := by
    simp [htid]
  have hft : f t = updatedRow now req t := by
    rw [hf]
    dsimp only
    rw [if_pos hcond]
    rfl
  have hlk2 : lookupTask (db.map f) id = some (updatedRow now req t) := by
    rw [lookupTask_map db id f hfid, h]
    show some (f t) = some (updatedRow now req t)
    rw [hft]
  refine ⟨db.map f, ?_, hlk2⟩
  have hsql := sqlConditionalUpdate_hit db now id req.title req.description
    req.status req.dueDate t h
  rw [← hf] at hsql
  have hscr : sqlConditionalUpdate db now (replacedTask req t).id
      (replacedTask req t).title (replacedTask req t).description
      (replacedTask req t).status (replacedTask req t).dueDate
      (replacedTask req t).version = (db.map f, some (t.version + 1)) := by
    dsimp only [replacedTask]
    rw [htid]
    exact hsql
  have hrepo : repoUpdate db now (replacedTask req t) =
      (db.map f,
        .ok { replacedTask req t with version := t.version + 1 }) := by
    unfold repoUpdate
    rw [hscr]
  simp only [serviceUpdate, hget]
  rw [if_neg (by omega : ¬ t.version ≠ req.version)]
  simp only [hrepo]
  rw [repoGet_ok_iff.mpr hlk2]

/-- The shared write half of `TaskRepo.Patch` hits its row when the read
it is based on is current. -/
theorem repoPatchWrite_hit (db : DB) (now : Nat) (t : Task)
    (p : PatchTaskRequest) (h : lookupTask db t.id = some t) :
    ∃ db2, repoPatchWrite db now t p = (db2, .ok (patchedRow now t p)) ∧
      lookupTask db2 t.id = some (patchedRow now t p) := by
  set f : Task → Task := fun r =>
    if r.id == t.id && r.version == t.version then
      applyRowUpdate now (applyPatch t p).title (applyPatch t p).description
        (applyPatch t p).status (applyPatch t p).dueDate r
    else r with hf
  have hfid : ∀ r, (f r).id = r.id := by
    intro r
    rw [hf]
    dsimp only
    split <;> rfl
  have hcond : (t.id == t.id && t.version == t.version) = true := by simp
  have hft : f t = patchedRow now t p := by
    rw [hf]
    dsimp only
    rw [if_pos hcond]
    rfl
  have hlk2 : lookupTask (db.map f) t.id = some (patchedRow now t p) := by
    rw [lookupTask_map db t.id f hfid, h]
    show some (f t) = some (patchedRow now t p)
    rw [hft]
  refine ⟨db.map f, ?_, hlk2⟩
  have hhit := sqlConditionalUpdate_hit db now t.id (applyPatch t p).title
    (applyPatch t p).description (applyPatch t p).status
    (applyPatch t p).dueDate t h
  rw [← hf] at hhit
  unfold repoPatchWrite
  have hid : (applyPatch t p).id = t.id := rfl
  dsimp only
  rw [hid, hhit]
  rfl

/-- `taskService.Patch` on an existing row, when the optional expected
version is absent or matches: success, returning the merged row with
version bumped by one, which is also what the table now stores. -/
theorem servicePatch_ok_eq (db : DB) (now id : Nat) (p : PatchTaskRequest)
    (t : Task) (h : lookupTask db id = some t)
    (hv : p.version = none ∨ p.version = some t.version) :
    ∃ db2, servicePatch db now id p = (db2, .ok (patchedRow now t p)) ∧
      lookupTask db2 id = some (patchedRow now t p) := by
  have htid : t.id = id := lookupTask_some_id h
  have hget : repoGet db id = .ok t := repoGet_ok_iff.mpr h
  have h' : lookupTask db t.id = some t := by rw [htid]; exact h
  obtain ⟨db2, hw, hlk⟩ := repoPatchWrite_hit db now t p h'
  have hrp : repoPatch db now id p = (db2, .ok (patchedRow now t p)) := by
    unfold repoPatch
    rcases hv with hnone | hsome
    · simp only [hget, hnone]
      exact hw
    · simp only [hget, hsome]
      rw [if_neg (by omega : ¬ t.version ≠ t.version)]
      exact hw
  refine ⟨db2, ?_, by rw [← htid]; exact hlk⟩
  simp only [servicePatch, hrp]

/-- Inversion: a successful full update means the row existed and the
expected version matched. -/
theorem serviceUpdate_ok_inv {db : DB} {now id : Nat}
    {req : UpdateTaskRequest} {db2 : DB} {t2 : Task}
    (h : serviceUpdate db now id req = (db2, .ok t2)) :
    ∃ t, lookupTask db id = some t ∧ t.version = req.version := by
  unfold serviceUpdate at h
  cases hget : repoGet db id with
  | error e =>
    rw [hget] at h
    dsimp only at h
    split at h <;> simp at h
  | ok task =>
    rw [hget] at h
    dsimp only at h
    by_cases hv : task.version ≠ req.version
    · rw [if_pos hv] at h
      simp at h
    · push_neg at hv
      exact ⟨task, repoGet_ok_iff.mp hget, hv⟩

/-- Inversion: a successful patch means the row existed and the expected
version, if supplied, matched. -/
theorem servicePatch_ok_inv {db : DB} {now id : Nat}
    {p : PatchTaskRequest} {db2 : DB} {t2 : Task}
    (h : servicePatch db now id p = (db2, .ok t2)) :
    ∃ t, lookupTask db id = some t ∧
      (p.version = none ∨ p.version = some t.version) := by
  unfold servicePatch repoPatch at h
  cases hget : repoGet db id with
  | error e =>
    rw [hget] at h
    dsimp only at h
    split at h <;> try split at h
    all_goals simp at h
  | ok task =>
    rw [hget] at h
    dsimp only at h
    cases hpv : p.version with
    | none => exact ⟨task, repoGet_ok_iff.mp hget, Or.inl rfl⟩
    | some v =>
      rw [hpv] at h
      dsimp only at h
      by_cases hv : v ≠ task.version
      · rw [if_pos hv] at h
        simp [errsIs] at h
      · push_neg at hv
        subst hv
        exact ⟨task, repoGet_ok_iff.mp hget, Or.inr rfl⟩

/-- A successful patch is exactly the canonical merged row, and the table
stores it. -/
theorem servicePatch_ok_unique {db : DB} {now id : Nat}
    {p : PatchTaskRequest} {db2 : DB} {t2 : Task}
    (h : servicePatch db now id p = (db2, .ok t2)) {t : Task}
    (hlk : lookupTask db id = some t) :
    t2 = patchedRow now t p ∧ lookupTask db2 id = some t2 := by
  obtain ⟨t1, hlk1, hv1⟩ := servicePatch_ok_inv h
  have ht1 : t1 = t := Option.some.inj (hlk1.symm.trans hlk)
  subst ht1
  obtain ⟨db2', heq, hlk2⟩ := servicePatch_ok_eq db now id p t1 hlk1 hv1
  have hpair := heq.symm.trans h
  rw [Prod.mk.injEq] at hpair
  obtain ⟨hdb, hok⟩ := hpair
  have ht2 : patchedRow now t1 p = t2 := by
    simpa using hok
  subst hdb
  exact ⟨ht2.symm, ht2 ▸ hlk2⟩

/-- A successful full update is exactly the canonical replaced row, and
the table stores it. -/
theorem serviceUpdate_ok_unique {db : DB} {now id : Nat}
    {req : UpdateTaskRequest} {db2 : DB} {t2 : Task}
    (h : serviceUpdate db now id req = (db2, .ok t2)) {t : Task}
    (hlk : lookupTask db id = some t) :
    t2 = updatedRow now req t ∧ lookupTask db2 id = some t2 := by
  obtain ⟨t1, hlk1, hv1⟩ := serviceUpdate_ok_inv h
  have ht1 : t1 = t := Option.some.inj (hlk1.symm.trans hlk)
  subst ht1
  obtain ⟨db2', heq, hlk2⟩ := serviceUpdate_ok_eq db now id req t1 hlk1 hv1
  have hpair := heq.symm.trans h
  rw [Prod.mk.injEq] at hpair
  obtain ⟨hdb, hok⟩ := hpair
  have ht2 : updatedRow now req t1 = t2 := by
    simpa using hok
  subst hdb
  exact ⟨ht2.symm, ht2 ▸ hlk2⟩

/-! ### C1: full update failures -/

/-- C1: on a full update, a missing row fails `NotFound` and a version
mismatch on an existing row fails `VersionConflict`; in both cases the
table is returned exactly as it was — no fields merged, no version bump. -/
theorem update_failure_preserves_row (db : DB) (now id : Nat)
    (req : UpdateTaskRequest) :
    (lookupTask db id = none →
      serviceUpdate db now id req = (db, .error .svcNotFound)) ∧
    (∀ t : Task, lookupTask db id = some t → t.version ≠ req.version →
      serviceUpdate db now id req = (db, .error .svcVersionConflict)) := by
  constructor
  · intro h
    simp [serviceUpdate, repoGet, h, errsIs]
  · intro t h hv
    simp [serviceUpdate, repoGet, h, hv]

/-- Witness for C1 at a concrete store: id 2 is absent, and id 1 exists at
version 1 while the caller expects version 7. -/
theorem update_failure_preserves_row_witness :
    serviceUpdate [sampleTask] 5 2 sampleUpdateReq =
      ([sampleTask], .error .svcNotFound) ∧
    serviceUpdate [sampleTask] 5 1
        { sampleUpdateReq with version := 7 } =
      ([sampleTask], .error .svcVersionConflict) :=
  ⟨(update_failure_preserves_row [sampleTask] 5 2 sampleUpdateReq).1 rfl,
   (update_failure_preserves_row [sampleTask] 5 1
      { sampleUpdateReq with version := 7 }).2 sampleTask rfl (by decide)⟩

/-! ### C8: idempotent delete -/

/-- `taskService.Delete` always returns success and leaves the table
without the id. -/
theorem serviceDelete_eq (db : DB) (id : Nat) :
    serviceDelete db id = (db.filter (fun r => r.id != id), .ok ()) := by
  unfold serviceDelete repoDelete
  cases taskExists db id <;> simp [errsIs]

/-- C8: delete reports success whether or not the row exists, removes the
row, and a second delete of the same id reports success again while
leaving the state exactly as after the first delete. -/
theorem delete_idempotent (db : DB) (id : Nat) :
    (serviceDelete db id).2 = .ok () ∧
    lookupTask (serviceDelete db id).1 id = none ∧
    serviceDelete (serviceDelete db id).1 id =
      ((serviceDelete db id).1, .ok ()) := by
  refine ⟨by rw [serviceDelete_eq], ?_, ?_⟩
  · rw [serviceDelete_eq]
    simp only [lookupTask]
    rw [List.find?_eq_none]
    intro x hx
    have := (List.mem_filter.mp hx).2
    simpa using this
  · simp [serviceDelete_eq, List.filter_filter, Bool.and_self]

/-! ### C2: the version counter -/

/-- Insertion into a table that does not contain the id. -/
theorem lookupTask_append_fresh {db : DB} {id : Nat} (t : Task)
    (hfresh : taskExists db id = false) :
    lookupTask (db ++ [t]) id = if (t.id == id) = true then some t
      else none := by
  have hnone : List.find? (fun r : Task => r.id == id) db = none := by
    rw [List.find?_eq_none]
    intro x hx hPx
    have hx2 : db.any (fun r => r.id == id) = true :=
      List.any_eq_true.mpr ⟨x, hx, hPx⟩
    rw [taskExists] at hfresh
    rw [hx2] at hfresh
    cases hfresh
  rw [lookupTask, List.find?_append, hnone]
  cases ht : (t.id == id) <;> simp [List.find?_cons, ht]

/-- `taskService.Create` with a fresh identifier appends the initial row
and returns it. -/
theorem serviceCreate_fresh (db : DB) (now newId : Nat)
    (req : CreateTaskRequest) (hfresh : taskExists db newId = false) :
    serviceCreate db now newId req =
      (db ++ [createdTask now newId req], .ok (createdTask now newId req)) := by
  unfold serviceCreate repoCreate
  have hid : (createdTask now newId req).id = newId := rfl
  rw [hid, hfresh]
  rfl

/-- A successful mutation bumps the stored version by exactly one. -/
theorem applyMutation_ok_version {db : DB} {now id : Nat} {m : Mutation}
    {db2 : DB} {t2 : Task}
    (h : applyMutation db now id m = (db2, .ok t2)) :
    ∃ v, storedVersion db id = some v ∧
      storedVersion db2 id = some (v + 1) := by
  cases m with
  | update req =>
    have h' : serviceUpdate db now id req = (db2, .ok t2) := h
    obtain ⟨t, hlk, -⟩ := serviceUpdate_ok_inv h'
    obtain ⟨ht2, hlk2⟩ := serviceUpdate_ok_unique h' hlk
    refine ⟨t.version, ?_, ?_⟩
    · rw [storedVersion, hlk]
      rfl
    · rw [storedVersion, hlk2, ht2]
      rfl
  | patch p =>
    have h' : servicePatch db now id p = (db2, .ok t2) := h
    obtain ⟨t, hlk, -⟩ := servicePatch_ok_inv h'
    obtain ⟨ht2, hlk2⟩ := servicePatch_ok_unique h' hlk
    refine ⟨t.version, ?_, ?_⟩
    · rw [storedVersion, hlk]
      rfl
    · rw [storedVersion, hlk2, ht2]
      rfl

/-- Over a fully successful run, the stored version grows by exactly the
number of mutations. -/
theorem runMutations_version (id : Nat) :
    ∀ (ms : List (Nat × Mutation)) (db db' : DB),
      runMutations db id ms = some db' →
      ∀ v, storedVersion db id = some v →
        storedVersion db' id = some (v + ms.length) := by
  intro ms
  induction ms with
  | nil =>
    intro db db' h v hv
    have hdb : db = db' := Option.some.inj h
    subst hdb
    simpa using hv
  | cons nm rest ih =>
    intro db db' h v hv
    obtain ⟨now, m⟩ := nm
    unfold runMutations at h
    cases ham : applyMutation db now id m with
    | mk db2 r =>
      rw [ham] at h
      cases r with
      | ok t2 =>
        dsimp only at h
        obtain ⟨w, hw1, hw2⟩ := applyMutation_ok_version ham
        have hwv : w = v := Option.some.inj (hw1.symm.trans hv)
        subst hwv
        have hrest := ih db2 db' h (w + 1) hw2
        rw [hrest]
        have : w + 1 + rest.length = w + (rest.length + 1) := by omega
        rw [this]
        rfl
      | error e =>
        dsimp only at h
        cases h

/-- C2: a freshly created task has version 1, and after any sequence of N
successful full updates or patches on its identifier the stored version is
exactly `1 + N` — the counter never skips and never repeats. -/
theorem version_counter (db : DB) (now0 newId : Nat)
    (req : CreateTaskRequest) (ms : List (Nat × Mutation))
    (db1 db' : DB) (t0 : Task)
    (hfresh : taskExists db newId = false)
    (hcreate : serviceCreate db now0 newId req = (db1, .ok t0))
    (hrun : runMutations db1 newId ms = some db') :
    t0.version = 1 ∧ storedVersion db1 newId = some 1 ∧
      storedVersion db' newId = some (1 + ms.length) := by
  have hc := serviceCreate_fresh db now0 newId req hfresh
  have hpair := hc.symm.trans hcreate
  rw [Prod.mk.injEq] at hpair
  obtain ⟨hdb1, hok⟩ := hpair
  have ht0 : createdTask now0 newId req = t0 := by simpa using hok
  have hlk1 : lookupTask db1 newId = some (createdTask now0 newId req) := by
    rw [← hdb1, lookupTask_append_fresh _ hfresh]
    rw [if_pos (by simp [createdTask])]
  have hsv1 : storedVersion db1 newId = some 1 := by
    rw [storedVersion, hlk1]
    rfl
  refine ⟨by rw [← ht0]; rfl, hsv1, ?_⟩
  exact runMutations_version newId ms db1 db' hrun 1 hsv1

/-- Evaluation of the single-patch run used in the C2 witness. -/
theorem runMutations_eval_t0c :
    runMutations [t0c] 7 [((5 : Nat), Mutation.patch emptyPatch)] =
      some [{ t0c with updatedAt := 5, version := 2 }] := by decide

/-- Witness for C2: create in an empty store, then one successful patch;
the stored version ends at 2 = 1 + 1. -/
theorem version_counter_witness :
    t0c.version = 1 ∧ storedVersion [t0c] 7 = some 1 ∧
      storedVersion [{ t0c with updatedAt := 5, version := 2 }] 7 =
        some (1 + [((5 : Nat), Mutation.patch emptyPatch)].length) :=
  version_counter [] 0 7
    { title := "x", description := none, status := none, dueDate := none }
    [(5, .patch emptyPatch)] [t0c]
    [{ t0c with updatedAt := 5, version := 2 }] t0c rfl rfl
    runMutations_eval_t0c

/-! ### C3: optional expected version on patch -/

/-- C3: on an existing task, a patch without an expected version always
succeeds (it can never fail `VersionConflict`) and is applied against
whatever version is current; a supplied expected version that differs from
the current one fails `VersionConflict`. -/
theorem patch_version_optionality (db : DB) (now id : Nat)
    (p : PatchTaskRequest) (t : Task) (h : lookupTask db id = some t) :
    (p.version = none →
      ∃ db2, servicePatch db now id p = (db2, .ok (patchedRow now t p)) ∧
        lookupTask db2 id = some (patchedRow now t p)) ∧
    (∀ v, p.version = some v → v ≠ t.version →
      servicePatch db now id p = (db, .error .svcVersionConflict)) := by
  constructor
  · intro hnone
    exact servicePatch_ok_eq db now id p t h (Or.inl hnone)
  · intro v hsome hv
    have hget : repoGet db id = .ok t := repoGet_ok_iff.mpr h
    unfold servicePatch repoPatch
    simp only [hget, hsome]
    rw [if_pos hv]
    simp [errsIs]

/-- Witness for C3: a version-less one-field patch succeeds on a live row,
and the same patch with a stale expected version conflicts. -/
theorem patch_version_optionality_witness :
    (∃ db2, servicePatch [sampleTask] 6 1
        { emptyPatch with status := some .completed } =
        (db2, .ok (patchedRow 6 sampleTask
          { emptyPatch with status := some .completed })) ∧
      lookupTask db2 1 = some (patchedRow 6 sampleTask
        { emptyPatch with status := some .completed })) ∧
    servicePatch [sampleTask] 6 1
        { emptyPatch with status := some .completed, version := some 9 } =
      ([sampleTask], .error .svcVersionConflict) :=
  ⟨(patch_version_optionality [sampleTask] 6 1
      { emptyPatch with status := some .completed } sampleTask rfl).1 rfl,
   (patch_version_optionality [sampleTask] 6 1
      { emptyPatch with status := some .completed, version := some 9 }
      sampleTask rfl).2 9 rfl (by decide)⟩

/-! ### C4: patch field isolation -/

/-- C4: on a successful patch every present field overwrites the stored
field and every absent field is untouched; the version increments by
exactly one however many fields are present (even zero). -/
theorem patch_field_isolation (db : DB) (now id : Nat)
    (p : PatchTaskRequest) (t : Task) (h : lookupTask db id = some t)
    (hv : p.version = none ∨ p.version = some t.version) :
    ∃ db2 t2, servicePatch db now id p = (db2, .ok t2) ∧
      lookupTask db2 id = some t2 ∧
      t2.title = (match p.title with | some v => v | none => t.title) ∧
      t2.description =
        (match p.description with | some v => some v | none => t.description) ∧
      t2.status = (match p.status with | some v => v | none => t.status) ∧
      t2.dueDate =
        (match p.dueDate with | some v => some v | none => t.dueDate) ∧
      t2.version = t.version + 1 := by
  obtain ⟨db2, heq, hlk⟩ := servicePatch_ok_eq db now id p t h hv
  exact ⟨db2, patchedRow now t p, heq, hlk, rfl, rfl, rfl, rfl, rfl⟩

/-- Witness for C4: patching only `{status}` on a concrete row. -/
theorem patch_field_isolation_witness :
    ∃ db2 t2, servicePatch [sampleTask] 6 1
        { emptyPatch with status := some .completed } = (db2, .ok t2) ∧
      lookupTask db2 1 = some t2 ∧
      t2.title = sampleTask.title ∧
      t2.description = sampleTask.description ∧
      t2.status = Status.completed ∧
      t2.dueDate = sampleTask.dueDate ∧
      t2.version = sampleTask.version + 1 :=
  patch_field_isolation [sampleTask] 6 1
    { emptyPatch with status := some .completed } sampleTask rfl (Or.inl rfl)

/-! ### C9: presence flags on patch fields -/

/-- C9: the patch request carries per-field presence (option types), so a
field explicitly present — even with the empty value — overwrites the
stored field, while an omitted field leaves the stored field untouched:
`description = some ""` stores the empty description, `description = none`
keeps the old one, and likewise for `due_date`. -/
theorem patch_presence_distinguishes (db : DB) (now id : Nat) (t : Task)
    (h : lookupTask db id = some t) :
    (∀ (p : PatchTaskRequest) (db2 : DB) (t2 : Task),
      p.description = some "" →
      servicePatch db now id p = (db2, .ok t2) →
      t2.description = some "") ∧
    (∀ (p : PatchTaskRequest) (db2 : DB) (t2 : Task),
      p.description = none →
      servicePatch db now id p = (db2, .ok t2) →
      t2.description = t.description) ∧
    (∀ (p : PatchTaskRequest) (db2 : DB) (t2 : Task) (d : Nat),
      p.dueDate = some d →
      servicePatch db now id p = (db2, .ok t2) →
      t2.dueDate = some d) ∧
    (∀ (p : PatchTaskRequest) (db2 : DB) (t2 : Task),
      p.dueDate = none →
      servicePatch db now id p = (db2, .ok t2) →
      t2.dueDate = t.dueDate) := by
  refine ⟨?_, ?_, ?_, ?_⟩
  · intro p db2 t2 hp hs
    obtain ⟨ht2, -⟩ := servicePatch_ok_unique hs h
    rw [ht2]
    show (match p.description with
      | some v => some v | none => t.description) = some ""
    rw [hp]
  · intro p db2 t2 hp hs
    obtain ⟨ht2, -⟩ := servicePatch_ok_unique hs h
    rw [ht2]
    show (match p.description with
      | some v => some v | none => t.description) = t.description
    rw [hp]
  · intro p db2 t2 d hp hs
    obtain ⟨ht2, -⟩ := servicePatch_ok_unique hs h
    rw [ht2]
    show (match p.dueDate with
      | some v => some v | none => t.dueDate) = some d
    rw [hp]
  · intro p db2 t2 hp hs
    obtain ⟨ht2, -⟩ := servicePatch_ok_unique hs h
    rw [ht2]
    show (match p.dueDate with
      | some v => some v | none => t.dueDate) = t.dueDate
    rw [hp]

/-- Witness for C9: explicitly setting `description` to the empty string
clears it, while omitting both optional fields leaves both untouched. -/
theorem patch_presence_distinguishes_witness :
    ((patchedRow 6 sampleTask
        { emptyPatch with description := some "" }).description = some "") ∧
    ((patchedRow 6 sampleTask emptyPatch).description =
      sampleTask.description) ∧
    ((patchedRow 6 sampleTask
        { emptyPatch with dueDate := some 42 }).dueDate = some 42) ∧
    ((patchedRow 6 sampleTask emptyPatch).dueDate = sampleTask.dueDate) := by
  have h := patch_presence_distinguishes [sampleTask] 6 1 sampleTask rfl
  refine ⟨?_, ?_, ?_, ?_⟩
  · exact h.1 { emptyPatch with description := some "" } _ _ rfl
      (servicePatch_ok_eq [sampleTask] 6 1
        { emptyPatch with description := some "" } sampleTask rfl
        (Or.inl rfl)).choose_spec.1
  · exact h.2.1 emptyPatch _ _ rfl
      (servicePatch_ok_eq [sampleTask] 6 1 emptyPatch sampleTask rfl
        (Or.inl rfl)).choose_spec.1
  · exact h.2.2.1 { emptyPatch with dueDate := some 42 } _ _ 42 rfl
      (servicePatch_ok_eq [sampleTask] 6 1
        { emptyPatch with dueDate := some 42 } sampleTask rfl
        (Or.inl rfl)).choose_spec.1
  · exact h.2.2.2 emptyPatch _ _ rfl
      (servicePatch_ok_eq [sampleTask] 6 1 emptyPatch sampleTask rfl
        (Or.inl rfl)).choose_spec.1

/-! ### C10: service vs repository sentinels -/

/-- `TaskRepo.Update` fails only with its two sentinels. -/
theorem repoUpdate_error_cases {db : DB} {now : Nat} {task : Task}
    {db2 : DB} {e : GoErr} (h : repoUpdate db now task = (db2, .error e)) :
    e = .repoVersionConflict ∨ e = .repoNotFound := by
  unfold repoUpdate at h
  cases hs : sqlConditionalUpdate db now task.id task.title task.description
      task.status task.dueDate task.version with
  | mk d o =>
    rw [hs] at h
    cases o with
    | some v => simp at h
    | none =>
      dsimp only at h
      split at h <;> simp_all

/-- `TaskRepo.Patch` fails only with its two sentinels. -/
theorem repoPatch_error_cases {db : DB} {now id : Nat}
    {p : PatchTaskRequest} {db2 : DB} {e : GoErr}
    (h : repoPatch db now id p = (db2, .error e)) :
    e = .repoNotFound ∨ e = .repoVersionConflict := by
  unfold repoPatch at h
  cases hget : repoGet db id with
  | error e1 =>
    rw [hget] at h
    dsimp only at h
    rw [Prod.mk.injEq] at h
    have he1 := repoGet_error_eq hget
    subst he1
    exact Or.inl (by simpa using h.2.symm)
  | ok task =>
    rw [hget] at h
    dsimp only at h
    have hw : ∀ (hww : repoPatchWrite db now task p = (db2, .error e)),
        e = .repoNotFound ∨ e = .repoVersionConflict := by
      intro hww
      unfold repoPatchWrite at hww
      dsimp only at hww
      cases hs : sqlConditionalUpdate db now (applyPatch task p).id
          (applyPatch task p).title (applyPatch task p).description
          (applyPatch task p).status (applyPatch task p).dueDate
          task.version with
      | mk d o =>
        rw [hs] at hww
        cases o with
        | some v => simp at hww
        | none =>
          dsimp only at hww
          rw [Prod.mk.injEq] at hww
          exact Or.inr (by simpa using hww.2.symm)
    cases hpv : p.version with
    | none =>
      rw [hpv] at h
      exact hw h
    | some v =>
      rw [hpv] at h
      dsimp only at h
      by_cases hv : v ≠ task.version
      · rw [if_pos hv] at h
        rw [Prod.mk.injEq] at h
        exact Or.inr (by simpa using h.2.symm)
      · rw [if_neg hv] at h
        exact hw h

/-- After a successful conditional update the row is still present. -/
theorem repoUpdate_ok_lookup {db : DB} {now : Nat} {task : Task}
    {db2 : DB} {u : Task} (h : repoUpdate db now task = (db2, .ok u)) :
    ∃ w, lookupTask db2 task.id = some w := by
  unfold repoUpdate at h
  cases hs : sqlConditionalUpdate db now task.id task.title task.description
      task.status task.dueDate task.version with
  | mk d o =>
    rw [hs] at h
    cases o with
    | none =>
      dsimp only at h
      split at h <;> simp at h
    | some v =>
      dsimp only at h
      rw [Prod.mk.injEq] at h
      obtain ⟨hd, -⟩ := h
      subst hd
      unfold sqlConditionalUpdate at hs
      rw [Prod.mk.injEq] at hs
      obtain ⟨hdb, hhit⟩ := hs
      cases hfind : List.find? (fun r : Task =>
          r.id == task.id && r.version == task.version) db with
      | none => rw [hfind] at hhit; simp at hhit
      | some r =>
        have hrmem := List.mem_of_find?_eq_some hfind
        have hrp := List.find?_some hfind
        have hrid : (r.id == task.id) = true := by
          have := Bool.and_elim_left hrp
          exact this
        rw [← hdb]
        have : (lookupTask (db.map (fun r => if r.id == task.id &&
            r.version == task.version then applyRowUpdate now task.title
              task.description task.status task.dueDate r else r))
            task.id).isSome = true := by
          rw [lookupTask, List.find?_isSome]
          refine ⟨applyRowUpdate now task.title task.description task.status
            task.dueDate r, ?_, ?_⟩
          · rw [List.mem_map]
            exact ⟨r, hrmem, by rw [hrp]; rfl⟩
          · simpa using hrid
        obtain ⟨w, hww⟩ := Option.isSome_iff_exists.mp this
        exact ⟨w, hww⟩

/-- `taskService.Get` fails only with `service.ErrNotFound`. -/
theorem serviceGet_error_eq {db : DB} {id : Nat} {e : GoErr}
    (h : serviceGet db id = .error e) : e = .svcNotFound := by
  unfold serviceGet at h
  cases hget : repoGet db id with
  | ok t => rw [hget] at h; simp at h
  | error e1 =>
    have he1 := repoGet_error_eq hget
    subst he1
    rw [hget] at h
    simp [errsIs] at h
    exact h.symm

/-- `taskService.Update` fails only with the two service sentinels. -/
theorem serviceUpdate_error_cases {db : DB} {now id : Nat}
    {req : UpdateTaskRequest} {db2 : DB} {e : GoErr}
    (h : serviceUpdate db now id req = (db2, .error e)) :
    e = .svcNotFound ∨ e = .svcVersionConflict := by
  unfold serviceUpdate at h
  cases hget : repoGet db id with
  | error e1 =>
    have he1 := repoGet_error_eq hget
    subst he1
    rw [hget] at h
    simp [errsIs] at h
    exact Or.inl h.2.symm
  | ok task =>
    rw [hget] at h
    dsimp only at h
    by_cases hv : task.version ≠ req.version
    · rw [if_pos hv] at h
      rw [Prod.mk.injEq] at h
      exact Or.inr (by simpa using h.2.symm)
    · rw [if_neg hv] at h
      cases hru : repoUpdate db now (replacedTask req task) with
      | mk d r =>
        rw [hru] at h
        cases r with
        | error e1 =>
          dsimp only at h
          rcases repoUpdate_error_cases hru with h1 | h1 <;> subst h1 <;>
            simp [errsIs] at h <;>
            first
              | exact Or.inr h.2.symm
              | exact Or.inl h.2.symm
        | ok u =>
          dsimp only at h
          rw [Prod.mk.injEq] at h
          obtain ⟨hd, hr⟩ := h
          obtain ⟨w, hww⟩ := repoUpdate_ok_lookup hru
          have hid : (replacedTask req task).id = id := by
            have := lookupTask_some_id (repoGet_ok_iff.mp hget)
            exact this
          rw [hid] at hww
          rw [repoGet_ok_iff.mpr hww] at hr
          cases hr

/-- `taskService.Patch` fails only with the two service sentinels. -/
theorem servicePatch_error_cases {db : DB} {now id : Nat}
    {p : PatchTaskRequest} {db2 : DB} {e : GoErr}
    (h : servicePatch db now id p = (db2, .error e)) :
    e = .svcNotFound ∨ e = .svcVersionConflict := by
  unfold servicePatch at h
  cases hrp : repoPatch db now id p with
  | mk d r =>
    rw [hrp] at h
    cases r with
    | ok t => simp at h
    | error e1 =>
      dsimp only at h
      rcases repoPatch_error_cases hrp with h1 | h1 <;> subst h1 <;>
        simp [errsIs] at h <;>
        first
          | exact Or.inr h.2.symm
          | exact Or.inl h.2.symm

/-- C10: the service's `ErrNotFound`/`ErrVersionConflict` are sentinels
distinct from the repository's; every error the service's Get/Update/Patch
can produce fails `errors.Is` against both repository sentinels, so the
handlers — which test exactly those — classify every such failure as 500. -/
theorem service_sentinels_not_repo (db : DB) (now id : Nat)
    (req : UpdateTaskRequest) (p : PatchTaskRequest) :
    (GoErr.svcNotFound ≠ GoErr.repoNotFound ∧
      GoErr.svcVersionConflict ≠ GoErr.repoVersionConflict) ∧
    (∀ e, serviceGet db id = .error e →
      errsIs e .repoNotFound = false ∧
      errsIs e .repoVersionConflict = false ∧ handlerErrorStatus e = 500) ∧
    (∀ db2 e, serviceUpdate db now id req = (db2, .error e) →
      errsIs e .repoNotFound = false ∧
      errsIs e .repoVersionConflict = false ∧ handlerErrorStatus e = 500) ∧
    (∀ db2 e, servicePatch db now id p = (db2, .error e) →
      errsIs e .repoNotFound = false ∧
      errsIs e .repoVersionConflict = false ∧ handlerErrorStatus e = 500) := by
  refine ⟨⟨by decide, by decide⟩, ?_, ?_, ?_⟩
  · intro e he
    rw [serviceGet_error_eq he]
    exact ⟨rfl, rfl, rfl⟩
  · intro db2 e he
    rcases serviceUpdate_error_cases he with h1 | h1 <;> subst h1 <;>
      exact ⟨rfl, rfl, rfl⟩
  · intro db2 e he
    rcases servicePatch_error_cases he with h1 | h1 <;> subst h1 <;>
      exact ⟨rfl, rfl, rfl⟩

/-- Witness for C10 at a concrete store: a missing id through Get, a
version conflict through Update, and a missing id through Patch all
classify as 500 at the handler. -/
theorem service_sentinels_not_repo_witness :
    (errsIs .svcNotFound .repoNotFound = false ∧
      errsIs .svcNotFound .repoVersionConflict = false ∧
      handlerErrorStatus .svcNotFound = 500) ∧
    (errsIs .svcVersionConflict .repoNotFound = false ∧
      errsIs .svcVersionConflict .repoVersionConflict = false ∧
      handlerErrorStatus .svcVersionConflict = 500) ∧
    (errsIs .svcNotFound .repoNotFound = false ∧
      errsIs .svcNotFound .repoVersionConflict = false ∧
      handlerErrorStatus .svcNotFound = 500) :=
  ⟨(service_sentinels_not_repo [sampleTask] 5 2 sampleUpdateReq
      emptyPatch).2.1 .svcNotFound rfl,
   (service_sentinels_not_repo [sampleTask] 5 1
      { sampleUpdateReq with version := 7 } emptyPatch).2.2.1
      [sampleTask] .svcVersionConflict
      ((update_failure_preserves_row [sampleTask] 5 1
        { sampleUpdateReq with version := 7 }).2 sampleTask rfl
        (by decide) ▸ rfl),
   (service_sentinels_not_repo [sampleTask] 5 2 sampleUpdateReq
      emptyPatch).2.2.2 [sampleTask] .svcNotFound rfl⟩

/-! ### C5 and C6: the list window -/

/-- Cutting a list into `n` consecutive chunks of `s` recovers the list,
provided the chunks cover it. -/
theorem join_chunks {α : Type _} (s : Nat) :
    ∀ (n : Nat) (l : List α), l.length ≤ n * s →
      ((List.range n).map (fun i => (l.drop (i * s)).take s)).flatten = l := by
  intro n
  induction n with
  | zero =>
    intro l hl
    simp only [Nat.zero_mul, Nat.le_zero] at hl
    rw [List.eq_nil_of_length_eq_zero hl]
    rfl
  | succ n ih =>
    intro l hl
    have hstep : ∀ i ∈ List.range n,
        ((fun i => (l.drop (i * s)).take s) ∘ Nat.succ) i =
          (fun i => (((l.drop s).drop (i * s)).take s)) i := by
      intro i _
      simp only [Function.comp_apply]
      rw [List.drop_drop]
      have he : Nat.succ i * s = s + i * s := by
        rw [Nat.succ_mul]
        omega
      rw [he]
    have hlen : (l.drop s).length ≤ n * s := by
      have hld : (l.drop s).length = l.length - s := List.length_drop s l
      have hsm : Nat.succ n * s = n * s + s := Nat.succ_mul n s
      rw [hsm] at hl
      generalize n * s = X at hl ⊢
      omega
    simp only [List.range_succ_eq_map, List.map_cons, List.map_map,
      List.flatten_cons]
    rw [List.map_congr_left hstep, ih (l.drop s) hlen]
    rw [Nat.zero_mul, List.drop_zero]
    exact List.take_append_drop s l

/-- On a non-empty result, page `i+1` of `TaskRepo.List` is the
`[i*size, i*size + size)` window of the sorted filtered rows. -/
theorem repoList_items_page (db : DB) (st : Option Status) (size : Int)
    (sortTok : String) (i : Nat) (hsize : 1 ≤ size)
    (hne : (db.filter (statusMatches st)).length ≠ 0) :
    (repoList db { status := st, page := (i : Int) + 1, size := size, sort := sortTok }).items =
      ((List.insertionSort (rowLe sortTok)
        (db.filter (statusMatches st))).drop (i * size.toNat)).take
        size.toNat := by
  have hsz : size = ((size.toNat : Nat) : Int) :=
    (Int.toNat_of_nonneg (by omega)).symm
  have hoff : ((((i : Nat) : Int) + 1 - 1) * size).toNat = i * size.toNat := by
    have h1 : (((i : Nat) : Int) + 1 - 1) * size =
        ((i * size.toNat : Nat) : Int) := by
      push_cast [Int.toNat_of_nonneg (show (0 : Int) ≤ size by omega)]
      ring
    rw [h1, Int.toNat_natCast]
  unfold repoList
  rw [if_neg (by simpa using hne)]
  dsimp only
  rw [hoff]

/-- C5: with any status filter and any positive page size, concatenating
the items of pages `1..totalPages` is a permutation of the filtered rows —
every row exactly once, no duplicates, no omissions — and its length is
`totalItems`; `totalPages` itself is the reported ceiling division. -/
theorem pagination_completeness (db : DB) (st : Option Status) (size : Int)
    (sortTok : String) (hsize : 1 ≤ size) :
    (repoList db { status := st, page := 1, size := size, sort := sortTok }).meta.totalPages =
      ((goCeilDiv (db.filter (statusMatches st)).length size.toNat : Nat)
        : Int) ∧
    (((List.range (goCeilDiv (db.filter (statusMatches st)).length
        size.toNat)).map (fun i : Nat =>
          (repoList db { status := st, page := (i : Int) + 1, size := size, sort := sortTok }).items)).flatten).Perm
      (db.filter (statusMatches st)) ∧
    ((List.range (goCeilDiv (db.filter (statusMatches st)).length
        size.toNat)).map (fun i : Nat =>
          (repoList db { status := st, page := (i : Int) + 1, size := size, sort := sortTok }).items)).flatten.length =
      (db.filter (statusMatches st)).length := by
  have hs : 1 ≤ size.toNat := by omega
  refine ⟨?_, ?_⟩
  · unfold repoList
    dsimp only
    split <;> rfl
  by_cases h0 : (db.filter (statusMatches st)).length = 0
  · have hnil : db.filter (statusMatches st) = [] :=
      List.eq_nil_of_length_eq_zero h0
    have hcd : goCeilDiv 0 size.toNat = 0 := by
      unfold goCeilDiv
      exact Nat.div_eq_of_lt (by omega)
    rw [h0, hcd, hnil]
    simp
  · have hpages : ∀ i ∈ List.range (goCeilDiv
        (db.filter (statusMatches st)).length size.toNat),
        (repoList db { status := st, page := (i : Int) + 1, size := size, sort := sortTok }).items =
        (fun i => ((List.insertionSort (rowLe sortTok)
          (db.filter (statusMatches st))).drop (i * size.toNat)).take
          size.toNat) i :=
      fun i _ => repoList_items_page db st size sortTok i hsize h0
    rw [List.map_congr_left hpages]
    have hlen : (List.insertionSort (rowLe sortTok)
        (db.filter (statusMatches st))).length =
        (db.filter (statusMatches st)).length :=
      List.length_insertionSort _ _
    have hcover : (List.insertionSort (rowLe sortTok)
        (db.filter (statusMatches st))).length ≤
        goCeilDiv (db.filter (statusMatches st)).length size.toNat *
          size.toNat := by
      rw [hlen]
      exact le_goCeilDiv_mul _ _ hs
    rw [join_chunks size.toNat _ _ hcover]
    have hperm := List.perm_insertionSort (rowLe sortTok)
      (db.filter (statusMatches st))
    exact ⟨hperm, hperm.length_eq⟩

/-- Witness for C5: five rows, page size 2, newest-first sort — the three
pages cover the table exactly. -/
theorem pagination_completeness_witness :
    (repoList listDb5 { status := none, page := 1, size := 2, sort := "-created_at" }).meta.totalPages =
      ((goCeilDiv (listDb5.filter (statusMatches none)).length
        (Int.toNat 2) : Nat) : Int) ∧
    (((List.range (goCeilDiv (listDb5.filter (statusMatches none)).length
        (Int.toNat 2))).map (fun i =>
          (repoList listDb5 { status := none, page := (i : Int) + 1, size := 2, sort := "-created_at" }).items)).flatten).Perm
      (listDb5.filter (statusMatches none)) ∧
    ((List.range (goCeilDiv (listDb5.filter (statusMatches none)).length
        (Int.toNat 2))).map (fun i =>
          (repoList listDb5 { status := none, page := (i : Int) + 1, size := 2, sort := "-created_at" }).items)).flatten.length =
      (listDb5.filter (statusMatches none)).length :=
  pagination_completeness listDb5 none 2 "-created_at" (by decide)

/-- C6: requesting a page whose offset lies past the last matching row
returns an empty `items` slice together with accurate metadata — the page
and page size echoed, the true filtered count, and the ceiling-division
page count, which is 0 when no row matches — and (being a total function)
never an error. -/
theorem out_of_range_page (db : DB) (st : Option Status) (page size : Int)
    (sortTok : String) (hpage : 1 ≤ page) (hsize : 1 ≤ size)
    (hbeyond : ((db.filter (statusMatches st)).length : Int) ≤
      (page - 1) * size) :
    repoList db { status := st, page := page, size := size, sort := sortTok } =
      { items := []
        meta := { page := page, pageSize := size
                  totalItems := ((db.filter (statusMatches st)).length : Int)
                  totalPages := ((goCeilDiv
                    (db.filter (statusMatches st)).length size.toNat : Nat)
                      : Int) } } ∧
    ((db.filter (statusMatches st)).length = 0 →
      (repoList db { status := st, page := page, size := size, sort := sortTok }).meta.totalPages = 0) := by
  have hoffbig : (db.filter (statusMatches st)).length ≤
      ((page - 1) * size).toNat := by
    have hnn : 0 ≤ (page - 1) * size :=
      mul_nonneg (by omega) (by omega)
    exact (Int.le_toNat hnn).mpr hbeyond
  constructor
  · unfold repoList
    by_cases h0 : (db.filter (statusMatches st)).length = 0
    · rw [if_pos (by simpa using h0)]
    · rw [if_neg (by simpa using h0)]
      dsimp only
      have hdrop : (List.insertionSort (rowLe sortTok)
          (db.filter (statusMatches st))).drop
          (((page - 1) * size).toNat) = [] := by
        apply List.drop_eq_nil_of_le
        rw [List.length_insertionSort]
        exact hoffbig
      rw [hdrop, List.take_nil]
  · intro h0
    unfold repoList
    have hcd : goCeilDiv (db.filter (statusMatches st)).length size.toNat
        = 0 := by
      rw [h0]
      unfold goCeilDiv
      exact Nat.div_eq_of_lt (by omega)
    rw [if_pos (by simpa using h0)]
    dsimp only
    rw [hcd]
    rfl

/-- Witness for C6, the spec scenario: 5 matching rows, page size 10,
page 3 — empty items, `totalPages = 1`; and on an empty filter the page
count is 0. -/
theorem out_of_range_page_witness :
    (repoList listDb5 { status := none, page := 3, size := 10, sort := "-created_at" } =
      { items := []
        meta := { page := 3, pageSize := 10
                  totalItems := ((listDb5.filter (statusMatches none)).length
                    : Int)
                  totalPages := ((goCeilDiv
                    (listDb5.filter (statusMatches none)).length
                    (Int.toNat 10) : Nat) : Int) } }) ∧
    (repoList ([] : DB) { status := none, page := 3, size := 10, sort := "-created_at" }).meta.totalPages = 0 :=
  ⟨(out_of_range_page listDb5 none 3 10 "-created_at" (by decide) (by decide)
      (by decide)).1,
   (out_of_range_page ([] : DB) none 3 10 "-created_at" (by decide)
      (by decide) (by decide)).2 rfl⟩

/-! ### C7: list parameter handling -/

/-- Whenever `ListTasks` accepts the request, the filter it builds carries
the silently normalised pagination values and the (defaulted) sort token. -/
theorem listTasksParse_ok_shape {q : ListQuery} {cfg : PaginationConfig}
    {f : TaskFilter} (h : listTasksParse q cfg = .ok f) :
    f.page = (paginationParse q.page q.pageSize
      { defaultPage := 1, defaultSize := cfg.defaultSize,
        maxSize := cfg.maxSize }).1 ∧
    f.size = (paginationParse q.page q.pageSize
      { defaultPage := 1, defaultSize := cfg.defaultSize,
        maxSize := cfg.maxSize }).2 ∧
    f.sort = (if q.sort == "" then "-created_at" else q.sort) := by
  unfold listTasksParse at h
  dsimp only at h
  by_cases hst : (q.status == "") = true
  · rw [if_pos hst] at h
    dsimp only at h
    by_cases hso : isValidSortField
        (if (q.sort == "") = true then "-created_at" else q.sort) = true
    · rw [if_pos hso] at h
      injection h with h2
      subst h2
      exact ⟨rfl, rfl, rfl⟩
    · rw [if_neg hso] at h
      cases h
  · rw [if_neg hst] at h
    by_cases hsv : isValidStatusStr q.status = true
    · rw [if_pos hsv] at h
      dsimp only at h
      by_cases hso : isValidSortField
          (if (q.sort == "") = true then "-created_at" else q.sort) = true
      · rw [if_pos hso] at h
        injection h with h2
        subst h2
        exact ⟨rfl, rfl, rfl⟩
      · rw [if_neg hso] at h
        cases h
    · rw [if_neg hsv] at h
      dsimp only at h
      cases h

/-- When both the status and the sort parameter are well-formed (or
absent), `ListTasks` accepts the request. -/
theorem listTasksParse_ok_of_valid {q : ListQuery} {cfg : PaginationConfig}
    (hst : q.status = "" ∨ isValidStatusStr q.status = true)
    (hso : q.sort = "" ∨ isValidSortField q.sort = true) :
    ∃ f, listTasksParse q cfg = .ok f := by
  unfold listTasksParse
  dsimp only
  have hsv : isValidSortField
      (if (q.sort == "") = true then "-created_at" else q.sort) = true := by
    by_cases he : (q.sort == "") = true
    · rw [if_pos he]
      decide
    · rw [if_neg he]
      rcases hso with hso | hso
      · exact absurd (by simpa using hso) he
      · exact hso
  by_cases he : (q.status == "") = true
  · rw [if_pos he]
    dsimp only
    rw [if_pos hsv]
    exact ⟨_, rfl⟩
  · have hstv : isValidStatusStr q.status = true := by
      rcases hst with hst | hst
      · exact absurd (by simpa using hst) he
      · exact hst
    rw [if_neg he, if_pos hstv]
    dsimp only
    rw [if_pos hsv]
    exact ⟨_, rfl⟩

/-- C7: `page` and `page_size` are never rejected — a missing or `< 1`
page becomes 1, a missing or `< 1` size becomes the configured default and
any size is clamped to the configured maximum — while an invalid `status`
value or an invalid `sort` token is rejected with a validation error, and
an absent `sort` defaults to `-created_at`. -/
theorem list_param_normalization (q : ListQuery) (cfg : PaginationConfig) :
    ((q.page = none ∨ ∃ pv, q.page = some pv ∧ pv < 1) →
      ∀ f, listTasksParse q cfg = .ok f → f.page = 1) ∧
    ((q.pageSize = none ∨ ∃ sv, q.pageSize = some sv ∧ sv < 1) →
      ∀ f, listTasksParse q cfg = .ok f →
        f.size = if cfg.defaultSize > cfg.maxSize then cfg.maxSize
          else cfg.defaultSize) ∧
    (∀ sv, q.pageSize = some sv → 1 ≤ sv → sv > cfg.maxSize →
      ∀ f, listTasksParse q cfg = .ok f → f.size = cfg.maxSize) ∧
    ((q.status = "" ∨ isValidStatusStr q.status = true) →
      (q.sort = "" ∨ isValidSortField q.sort = true) →
      ∃ f, listTasksParse q cfg = .ok f) ∧
    (q.status ≠ "" → isValidStatusStr q.status = false →
      listTasksParse q cfg = .error .invalidStatus) ∧
    ((q.status = "" ∨ isValidStatusStr q.status = true) →
      q.sort ≠ "" → isValidSortField q.sort = false →
      listTasksParse q cfg = .error .invalidSort) ∧
    (q.sort = "" → ∀ f, listTasksParse q cfg = .ok f →
      f.sort = "-created_at") := by
  refine ⟨?_, ?_, ?_, fun a b => listTasksParse_ok_of_valid a b, ?_, ?_, ?_⟩
  · intro hp f hf
    rw [(listTasksParse_ok_shape hf).1]
    unfold paginationParse
    rcases hp with hp | ⟨pv, hp, hlt⟩
    · rw [hp]
    · rw [hp]
      dsimp only
      rw [if_pos hlt]
  · intro hp f hf
    rw [(listTasksParse_ok_shape hf).2.1]
    unfold paginationParse
    rcases hp with hp | ⟨sv, hp, hlt⟩
    · rw [hp]
    · rw [hp]
      dsimp only
      rw [if_pos hlt]
  · intro sv hp h1 hmax f hf
    rw [(listTasksParse_ok_shape hf).2.1]
    unfold paginationParse
    rw [hp]
    dsimp only
    have hnlt : ¬ sv < 1 := by omega
    rw [if_neg hnlt, if_pos hmax]
  · intro hne hbad
    unfold listTasksParse
    dsimp only
    rw [if_neg (by simpa using hne), if_neg (by simp [hbad])]
  · intro hst hne hbad
    unfold listTasksParse
    dsimp only
    have hsorteq : (if (q.sort == "") = true then "-created_at" else q.sort)
        = q.sort :=
      if_neg (by simpa using hne)
    rcases hst with hst | hst
    · rw [if_pos (by simpa using hst)]
      dsimp only
      rw [hsorteq, if_neg (by simp [hbad])]
    · by_cases he : (q.status == "") = true
      · rw [if_pos he]
        dsimp only
        rw [hsorteq, if_neg (by simp [hbad])]
      · rw [if_neg he, if_pos hst]
        dsimp only
        rw [hsorteq, if_neg (by simp [hbad])]
  · intro hso f hf
    rw [(listTasksParse_ok_shape hf).2.2]
    simp [hso]

/-- Witness for C7 at concrete queries against the default configuration:
a negative page is normalised to 1, a missing size becomes 20, an
oversized size is clamped to 100, a well-formed query is accepted, a bad
status and a bad sort are each rejected, and an absent sort becomes
`-created_at`. -/
theorem list_param_normalization_witness :
    (∀ f, listTasksParse
        { page := some (-3), pageSize := none, status := "", sort := "" }
        defaultCfg = .ok f → f.page = 1) ∧
    (∀ f, listTasksParse
        { page := some (-3), pageSize := none, status := "", sort := "" }
        defaultCfg = .ok f →
        f.size = if defaultCfg.defaultSize > defaultCfg.maxSize then
          defaultCfg.maxSize else defaultCfg.defaultSize) ∧
    (∀ f, listTasksParse
        { page := some 1, pageSize := some 500, status := "", sort := "" }
        defaultCfg = .ok f → f.size = defaultCfg.maxSize) ∧
    (∃ f, listTasksParse
        { page := some 1, pageSize := some 10, status := "InProgress",
          sort := "due_date" } defaultCfg = .ok f) ∧
    (listTasksParse
        { page := some 1, pageSize := some 10, status := "Bogus",
          sort := "" } defaultCfg = .error .invalidStatus) ∧
    (listTasksParse
        { page := some 1, pageSize := some 10, status := "",
          sort := "bogus" } defaultCfg = .error .invalidSort) ∧
    (∀ f, listTasksParse
        { page := some 1, pageSize := some 10, status := "", sort := "" }
        defaultCfg = .ok f → f.sort = "-created_at") := by
  refine ⟨?_, ?_, ?_, ?_, ?_, ?_, ?_⟩
  · intro f hf
    exact (list_param_normalization
      { page := some (-3), pageSize := none, status := "", sort := "" }
      defaultCfg).1 (Or.inr ⟨-3, rfl, by decide⟩) f hf
  · intro f hf
    exact (list_param_normalization
      { page := some (-3), pageSize := none, status := "", sort := "" }
      defaultCfg).2.1 (Or.inl rfl) f hf
  · intro f hf
    exact (list_param_normalization
      { page := some 1, pageSize := some 500, status := "", sort := "" }
      defaultCfg).2.2.1 500 rfl (by decide) (by decide) f hf
  · exact (list_param_normalization
      { page := some 1, pageSize := some 10, status := "InProgress",
        sort := "due_date" } defaultCfg).2.2.2.1
      (Or.inr (by decide)) (Or.inr (by decide))
  · exact (list_param_normalization
      { page := some 1, pageSize := some 10, status := "Bogus",
        sort := "" } defaultCfg).2.2.2.2.1 (by decide) (by decide)
  · exact (list_param_normalization
      { page := some 1, pageSize := some 10, status := "",
        sort := "bogus" } defaultCfg).2.2.2.2.2.1 (Or.inl rfl) (by decide)
      (by decide)
  · intro f hf
    exact (list_param_normalization
      { page := some 1, pageSize := some 10, status := "", sort := "" }
      defaultCfg).2.2.2.2.2.2 rfl f hf

end TaskSvc
